import Mathlib

/-!
# Device check-out/check-in store: a shallow embedding

This development embeds the core device/log state-transition module of a
single-page equipment tracker (the `useDevices` hook): an in-memory registry
of devices (`devices`) and movement logs (`logs`), with three operations
`addDevice` (register), `removeDevice` (unregister) and `scanDevice`
(lend/return state machine), each returning a result descriptor.

Strings are modelled by Lean `String`; the JavaScript string helpers
`toUpperCase` (ASCII range, as applied to barcodes) and `trim` (ASCII
whitespace) are modelled over the underlying character list.  The fresh
UUID and the current time, which the source obtains from `crypto.randomUUID()`
and `new Date()`, are passed as explicit parameters; timestamps are `Nat`.
Persistence to the browser key-value store mirrors the in-memory collections
verbatim and is not part of the functional state.

Field and operation names follow the source (`status` values `disponivel`
= available and `emprestado` = lent; log actions `saida` = checkout and
`devolucao` = checkin; `currentOwner` = current holder; `owner` = holder).
-/

namespace Coletores

/-- Device status: `disponivel` (available) or `emprestado` (lent). -/
inductive DStatus where
  | disponivel
  | emprestado
deriving DecidableEq

/-- Log action: `saida` (checkout, source literal "SAÍDA") or `devolucao`
(checkin, source literal "DEVOLUÇÃO"). -/
inductive LogAction where
  | saida
  | devolucao
deriving DecidableEq

/-- A registered device, as in `types/device.ts`. -/
structure Device where
  id : String
  name : String
  barcode : String
  status : DStatus
  currentOwner : Option String
  createdAt : Nat
deriving DecidableEq

/-- A movement log entry, as in `types/device.ts`: it has exactly the
fields `id`, `deviceName`, `action`, `owner`, `timestamp`. -/
structure LogEntry where
  id : String
  deviceName : String
  action : LogAction
  owner : String
  timestamp : Nat
deriving DecidableEq

/-- The store state: the two collections owned by the hook. -/
structure Store where
  devices : List Device
  logs : List LogEntry
deriving DecidableEq

/-- Result descriptor of `addDevice`/`removeDevice`: success flag and
user-facing message. -/
structure OpResult where
  success : Bool
  message : String
deriving DecidableEq

/-- Result descriptor of `scanDevice`: success flag, message, the
`needsOwner` flag and the optional matched device payload (the source
leaves the last two fields `undefined` on the other branches, modelled
by `false` and `none`). -/
structure ScanResult where
  success : Bool
  message : String
  needsOwner : Bool
  device : Option Device
deriving DecidableEq

/-- ASCII whitespace recognised by the model of JavaScript `trim`:
space (32) and the control characters tab through carriage return (9–13). -/
def isJsSpace (c : Char) : Bool :=
  decide (c.toNat = 32 ∨ (9 ≤ c.toNat ∧ c.toNat ≤ 13))

/-- Model of JavaScript `toUpperCase` on the ASCII range: uppercase each
character (Lean core `Char.toUpper` maps exactly the 26 basic latin
lowercase letters, as JavaScript does on this range). -/
def jsToUpper (s : String) : String :=
  String.mk (s.data.map Char.toUpper)

/-- Trimming a character list on the left, then on the right. -/
def jsTrimList (l : List Char) : List Char :=
  (((l.dropWhile isJsSpace).reverse.dropWhile isJsSpace).reverse)

/-- Model of JavaScript `trim`: drop whitespace from both ends. -/
def jsTrim (s : String) : String :=
  String.mk (jsTrimList s.data)

/-- Barcode normalization as in the source: `barcode.toUpperCase().trim()`. -/
def normalizeBarcode (s : String) : String :=
  jsTrim (jsToUpper s)

/-- The guard `!ownerName?.trim()` of the source: the optional owner name
is absent, or empty after trimming. -/
def ownerBlank : Option String → Bool
  | none => true
  | some o => jsTrim o == ""

/-- The fallback `device.currentOwner || 'Desconhecido'` of the source:
a null or empty current owner falls back to the placeholder. -/
def previousOwnerOf : Option String → String
  | none => "Desconhecido"
  | some o => if o = "" then "Desconhecido" else o

/-- Log insertion as in the source: `[newLog, ...logs].slice(0, 100)` —
the new entry goes to the front and the list is capped at 100 entries. -/
def pushLog (e : LogEntry) (logs : List LogEntry) : List LogEntry :=
  (e :: logs).take 100

/-- `addDevice(name, barcode)` of `useDevices.ts`.  `fid` is the fresh
`crypto.randomUUID()` and `now` the current time. -/
def addDevice (s : Store) (name barcode : String) (fid : String) (now : Nat) :
    Store × OpResult :=
  let normalizedBarcode := normalizeBarcode barcode
  if jsTrim name = "" ∨ normalizedBarcode = "" then
    (s, ⟨false, "Nome e código de barras são obrigatórios"⟩)
  else if s.devices.any (fun d => d.barcode == normalizedBarcode) then
    (s, ⟨false, "Código \"" ++ normalizedBarcode ++ "\" já existe!"⟩)
  else
    let newDevice : Device :=
      ⟨fid, jsTrim name, normalizedBarcode, DStatus.disponivel, none, now⟩
    (⟨s.devices ++ [newDevice], s.logs⟩,
     ⟨true, "Coletor \"" ++ name ++ "\" cadastrado com sucesso!"⟩)

/-- `removeDevice(id)` of `useDevices.ts`. -/
def removeDevice (s : Store) (i : String) : Store × OpResult :=
  match s.devices.find? (fun d => d.id == i) with
  | none => (s, ⟨false, "Dispositivo não encontrado"⟩)
  | some device =>
    if device.status = DStatus.emprestado then
      (s, ⟨false, "Não é possível remover um dispositivo emprestado"⟩)
    else
      (⟨s.devices.filter (fun d => !(d.id == i)), s.logs⟩,
       ⟨true, "Coletor \"" ++ device.name ++ "\" removido!"⟩)

/-- `scanDevice(barcode, ownerName?)` of `useDevices.ts`.  `fid` is the
fresh log-entry id and `now` the current time. -/
def scanDevice (s : Store) (barcode : String) (ownerName : Option String)
    (fid : String) (now : Nat) : Store × ScanResult :=
  let normalizedBarcode := normalizeBarcode barcode
  match s.devices.find? (fun d => d.barcode == normalizedBarcode) with
  | none =>
    (s, ⟨false, "Código \"" ++ normalizedBarcode ++ "\" não encontrado!",
      false, none⟩)
  | some device =>
    if device.status = DStatus.disponivel then
      match ownerName with
      | none => (s, ⟨false, "", true, some device⟩)
      | some o =>
        if jsTrim o = "" then
          (s, ⟨false, "", true, some device⟩)
        else
          let owner := jsTrim o
          let updatedDevices := s.devices.map (fun d =>
            if d.id = device.id then
              { d with status := DStatus.emprestado, currentOwner := some owner }
            else d)
          let newLog : LogEntry := ⟨fid, device.name, LogAction.saida, owner, now⟩
          (⟨updatedDevices, pushLog newLog s.logs⟩,
           ⟨true, "SAÍDA: " ++ device.name ++ " → " ++ owner, false, none⟩)
    else
      let previousOwner := previousOwnerOf device.currentOwner
      let updatedDevices := s.devices.map (fun d =>
        if d.id = device.id then
          { d with status := DStatus.disponivel, currentOwner := none }
        else d)
      let newLog : LogEntry := ⟨fid, device.name, LogAction.devolucao, previousOwner, now⟩
      (⟨updatedDevices, pushLog newLog s.logs⟩,
       ⟨true, "DEVOLVIDO: " ++ device.name ++ " ← " ++ previousOwner, false, none⟩)

/-- A store reachable from the empty store by any sequence of register,
unregister and scan operations (with arbitrary inputs, fresh ids and
times). -/
inductive Reachable : Store → Prop where
  | empty : Reachable ⟨[], []⟩
  | add {s : Store} (n b fid : String) (t : Nat) :
      Reachable s → Reachable (addDevice s n b fid t).1
  | remove {s : Store} (i : String) :
      Reachable s → Reachable (removeDevice s i).1
  | scan {s : Store} (b : String) (o : Option String) (fid : String) (t : Nat) :
      Reachable s → Reachable (scanDevice s b o fid t).1

/-! ## Properties of the string model -/

theorem toNat_ofNat_valid {n : Nat} (h : n.isValidChar) : (Char.ofNat n).toNat = n := by
  rw [Char.ofNat, dif_pos h]
  rfl

theorem toUpper_toNat (c : Char) :
    (Char.toUpper c).toNat = if 97 ≤ c.toNat ∧ c.toNat ≤ 122 then c.toNat - 32 else c.toNat := by
  unfold Char.toUpper
  split
  · rename_i h
    rw [if_pos h, toNat_ofNat_valid (Or.inl (by omega))]
  · rename_i h
    rw [if_neg h]

theorem toUpper_eq_self {d : Char} (h : ¬(97 ≤ d.toNat ∧ d.toNat ≤ 122)) :
    Char.toUpper d = d := by
  unfold Char.toUpper
  rw [if_neg h]

theorem toUpper_toUpper (c : Char) : Char.toUpper (Char.toUpper c) = Char.toUpper c := by
  apply toUpper_eq_self
  rw [toUpper_toNat c]
  by_cases hc : 97 ≤ c.toNat ∧ c.toNat ≤ 122
  · rw [if_pos hc]
    omega
  · rw [if_neg hc]
    exact hc

theorem isJsSpace_toUpper (c : Char) : isJsSpace (Char.toUpper c) = isJsSpace c := by
  unfold isJsSpace
  rw [toUpper_toNat c]
  by_cases hc : 97 ≤ c.toNat ∧ c.toNat ≤ 122
  · rw [if_pos hc]
    simp only [decide_eq_decide]
    omega
  · rw [if_neg hc]

theorem jsTrimList_eq (l : List Char) :
    jsTrimList l = List.rdropWhile isJsSpace (l.dropWhile isJsSpace) := rfl

theorem dropWhile_fixed_cons {α : Type} {p : α → Bool} {a : α} {r : List α}
    (h : List.dropWhile p (a :: r) = a :: r) : p a = false := by
  cases hpa : p a with
  | false => rfl
  | true =>
    exfalso
    rw [List.dropWhile_cons_of_pos hpa] at h
    have hsub : List.Sublist (List.dropWhile p r) r := List.dropWhile_sublist p
    have hlen := congrArg List.length h
    have hle := hsub.length_le
    simp at hlen
    omega

theorem rdropWhile_head_preserved {α : Type} {p : α → Bool} {y : List α}
    (hy : y.dropWhile p = y) : (y.rdropWhile p).dropWhile p = y.rdropWhile p := by
  have hsuf : List.IsSuffix (List.dropWhile p y.reverse) y.reverse := List.dropWhile_suffix p
  obtain ⟨s, hs⟩ := hsuf
  have hdecomp : y = y.rdropWhile p ++ s.reverse := by
    rw [List.rdropWhile]
    have := congrArg List.reverse hs
    rw [List.reverse_append, List.reverse_reverse] at this
    exact this.symm
  cases hx : y.rdropWhile p with
  | nil => simp [List.dropWhile]
  | cons a x' =>
    have hya : y = a :: (x' ++ s.reverse) := by
      rw [hdecomp, hx]
      simp
    have hpa : p a = false := by
      have hy2 : List.dropWhile p (a :: (x' ++ s.reverse)) = a :: (x' ++ s.reverse) := by
        rw [← hya]
        exact hy
      exact dropWhile_fixed_cons hy2
    rw [List.dropWhile_cons_of_neg (by simp [hpa])]

theorem jsTrimList_idem (l : List Char) : jsTrimList (jsTrimList l) = jsTrimList l := by
  rw [jsTrimList_eq, jsTrimList_eq]
  rw [rdropWhile_head_preserved (List.dropWhile_idempotent isJsSpace l)]
  exact List.rdropWhile_idempotent isJsSpace _

theorem dropWhile_map_upper (l : List Char) :
    (l.map Char.toUpper).dropWhile isJsSpace =
      (l.dropWhile isJsSpace).map Char.toUpper := by
  rw [List.dropWhile_map]
  have hcomp : (isJsSpace ∘ Char.toUpper) = isJsSpace := funext fun c => isJsSpace_toUpper c
  rw [hcomp]

theorem jsTrimList_map_upper (l : List Char) :
    jsTrimList (l.map Char.toUpper) = (jsTrimList l).map Char.toUpper := by
  unfold jsTrimList
  rw [dropWhile_map_upper, ← List.map_reverse, dropWhile_map_upper, List.map_reverse]

theorem normalizeBarcode_idem (s : String) :
    normalizeBarcode (normalizeBarcode s) = normalizeBarcode s := by
  unfold normalizeBarcode jsToUpper jsTrim
  congr 1
  rw [jsTrimList_map_upper, jsTrimList_idem, ← jsTrimList_map_upper, List.map_map]
  have hmm : (Char.toUpper ∘ Char.toUpper) = Char.toUpper :=
    funext fun c => toUpper_toUpper c
  rw [hmm]

/-! ## The reachable-state invariant -/

/-- Invariant maintained by every operation: lent status and current owner
agree; stored barcodes are normalized and non-empty; stored barcodes are
pairwise distinct; the log is capped at 100 entries. -/
def Inv (s : Store) : Prop :=
  (∀ d ∈ s.devices, (d.status = DStatus.emprestado ↔ d.currentOwner ≠ none)) ∧
  (∀ d ∈ s.devices, d.barcode = normalizeBarcode d.barcode ∧ d.barcode ≠ "") ∧
  (s.devices.map (fun d => d.barcode)).Nodup ∧
  s.logs.length ≤ 100

theorem inv_empty : Inv ⟨[], []⟩ := by
  refine ⟨?_, ?_, ?_, ?_⟩ <;> simp

theorem inv_addDevice {s : Store} (h : Inv s) (n b fid : String) (t : Nat) :
    Inv (addDevice s n b fid t).1 := by
  obtain ⟨h1, h2, h3, h4⟩ := h
  simp only [addDevice]
  by_cases hv : jsTrim n = "" ∨ normalizeBarcode b = ""
  · rw [if_pos hv]
    exact ⟨h1, h2, h3, h4⟩
  · rw [if_neg hv]
    by_cases hdup : s.devices.any (fun d => d.barcode == normalizeBarcode b) = true
    · rw [if_pos hdup]
      exact ⟨h1, h2, h3, h4⟩
    · rw [if_neg hdup]
      push_neg at hv
      refine ⟨?_, ?_, ?_, h4⟩
      · intro d hd
        rcases List.mem_append.mp hd with hd | hd
        · exact h1 d hd
        · rcases List.mem_singleton.mp hd with rfl
          simp
      · intro d hd
        rcases List.mem_append.mp hd with hd | hd
        · exact h2 d hd
        · rcases List.mem_singleton.mp hd with rfl
          exact ⟨(normalizeBarcode_idem b).symm, hv.2⟩
      · rw [List.map_append]
        refine List.Nodup.append h3 (by simp) ?_
        intro x hx hx'
        simp only [List.map_cons, List.map_nil, List.mem_singleton] at hx'
        subst hx'
        rcases List.mem_map.mp hx with ⟨d, hd, hdb⟩
        have hany := List.any_eq_true.not.mp hdup
        push_neg at hany
        have hf := hany d hd
        simp [hdb] at hf

theorem inv_removeDevice {s : Store} (h : Inv s) (i : String) :
    Inv (removeDevice s i).1 := by
  obtain ⟨h1, h2, h3, h4⟩ := h
  simp only [removeDevice]
  cases hfd : s.devices.find? (fun d => d.id == i) with
  | none => exact ⟨h1, h2, h3, h4⟩
  | some device =>
    dsimp only
    by_cases hst : device.status = DStatus.emprestado
    · rw [if_pos hst]
      exact ⟨h1, h2, h3, h4⟩
    · rw [if_neg hst]
      refine ⟨?_, ?_, ?_, h4⟩
      · intro d hd
        exact h1 d (List.mem_of_mem_filter hd)
      · intro d hd
        exact h2 d (List.mem_of_mem_filter hd)
      · exact List.Nodup.sublist (List.Sublist.map _ (List.filter_sublist _)) h3

theorem inv_scanDevice {s : Store} (h : Inv s) (b : String) (o : Option String)
    (fid : String) (t : Nat) : Inv (scanDevice s b o fid t).1 := by
  obtain ⟨h1, h2, h3, h4⟩ := h
  simp only [scanDevice]
  cases hfd : s.devices.find? (fun d => d.barcode == normalizeBarcode b) with
  | none => exact ⟨h1, h2, h3, h4⟩
  | some device =>
    dsimp only
    by_cases hst : device.status = DStatus.disponivel
    · rw [if_pos hst]
      cases o with
      | none => exact ⟨h1, h2, h3, h4⟩
      | some ow =>
        dsimp only
        by_cases how : jsTrim ow = ""
        · rw [if_pos how]
          exact ⟨h1, h2, h3, h4⟩
        · rw [if_neg how]
          refine ⟨?_, ?_, ?_, ?_⟩
          · intro d hd
            rcases List.mem_map.mp hd with ⟨x, hx, rfl⟩
            by_cases hid : x.id = device.id
            · rw [if_pos hid]
              simp
            · rw [if_neg hid]
              exact h1 x hx
          · intro d hd
            rcases List.mem_map.mp hd with ⟨x, hx, rfl⟩
            by_cases hid : x.id = device.id
            · rw [if_pos hid]
              exact h2 x hx
            · rw [if_neg hid]
              exact h2 x hx
          · rw [List.map_map]
            have : ((fun d => d.barcode) ∘ (fun d =>
                if d.id = device.id then
                  { d with status := DStatus.emprestado, currentOwner := some (jsTrim ow) }
                else d) : Device → String) = fun d => d.barcode := by
              funext x
              by_cases hid : x.id = device.id <;> simp [hid]
            rw [this]
            exact h3
          · simp only [pushLog, List.length_take]
            omega
    · rw [if_neg hst]
      refine ⟨?_, ?_, ?_, ?_⟩
      · intro d hd
        rcases List.mem_map.mp hd with ⟨x, hx, rfl⟩
        by_cases hid : x.id = device.id
        · rw [if_pos hid]
          simp
        · rw [if_neg hid]
          exact h1 x hx
      · intro d hd
        rcases List.mem_map.mp hd with ⟨x, hx, rfl⟩
        by_cases hid : x.id = device.id
        · rw [if_pos hid]
          exact h2 x hx
        · rw [if_neg hid]
          exact h2 x hx
      · rw [List.map_map]
        have : ((fun d => d.barcode) ∘ (fun d =>
            if d.id = device.id then
              { d with status := DStatus.disponivel, currentOwner := none }
            else d) : Device → String) = fun d => d.barcode := by
          funext x
          by_cases hid : x.id = device.id <;> simp [hid]
        rw [this]
        exact h3
      · simp only [pushLog, List.length_take]
        omega

/-- Every reachable store satisfies the invariant. -/
theorem inv_of_reachable {s : Store} (h : Reachable s) : Inv s := by
  induction h with
  | empty => exact inv_empty
  | add n b fid t _ ih => exact inv_addDevice ih n b fid t
  | remove i _ ih => exact inv_removeDevice ih i
  | scan b o fid t _ ih => exact inv_scanDevice ih b o fid t

/-! ## Branch characterizations of the operations -/

theorem scanDevice_checkout {s : Store} {d : Device} {b o fid : String} {t : Nat}
    (hfd : s.devices.find? (fun x => x.barcode == normalizeBarcode b) = some d)
    (hst : d.status = DStatus.disponivel) (how : jsTrim o ≠ "") :
    scanDevice s b (some o) fid t =
      (⟨s.devices.map (fun x =>
          if x.id = d.id then
            { x with status := DStatus.emprestado, currentOwner := some (jsTrim o) }
          else x),
        pushLog ⟨fid, d.name, LogAction.saida, jsTrim o, t⟩ s.logs⟩,
       ⟨true, "SAÍDA: " ++ d.name ++ " → " ++ jsTrim o, false, none⟩) := by
  simp only [scanDevice]
  rw [hfd]
  dsimp only
  rw [if_pos hst, if_neg how]

theorem scanDevice_checkin {s : Store} {d : Device} {b fid : String}
    {o : Option String} {t : Nat}
    (hfd : s.devices.find? (fun x => x.barcode == normalizeBarcode b) = some d)
    (hst : d.status = DStatus.emprestado) :
    scanDevice s b o fid t =
      (⟨s.devices.map (fun x =>
          if x.id = d.id then
            { x with status := DStatus.disponivel, currentOwner := none }
          else x),
        pushLog ⟨fid, d.name, LogAction.devolucao, previousOwnerOf d.currentOwner, t⟩ s.logs⟩,
       ⟨true, "DEVOLVIDO: " ++ d.name ++ " ← " ++ previousOwnerOf d.currentOwner,
        false, none⟩) := by
  simp only [scanDevice]
  rw [hfd]
  dsimp only
  rw [if_neg (by rw [hst]; intro hcontra; cases hcontra)]

theorem scanDevice_needsOwner {s : Store} {d : Device} {b fid : String}
    {o : Option String} {t : Nat}
    (hfd : s.devices.find? (fun x => x.barcode == normalizeBarcode b) = some d)
    (hst : d.status = DStatus.disponivel) (how : ownerBlank o = true) :
    scanDevice s b o fid t = (s, ⟨false, "", true, some d⟩) := by
  simp only [scanDevice]
  rw [hfd]
  dsimp only
  rw [if_pos hst]
  cases o with
  | none => rfl
  | some ow =>
    dsimp only
    rw [if_pos (by simpa [ownerBlank] using how)]

/-! ## Claims -/

/-- C1: For every reachable store state (obtained from the empty state by any
sequence of register, unregister, and scan operations), every device in the
devices collection satisfies: its status is lent (`emprestado`) if and only if
its `currentOwner` is non-null. -/
theorem C1_status_lent_iff_holder (s : Store) (d : Device) (hs : Reachable s)
    (hd : d ∈ s.devices) : d.status = DStatus.emprestado ↔ d.currentOwner ≠ none :=
  (inv_of_reachable hs).1 d hd

/-- Witness for C1 at a concrete reachable state: register one device, then
check it out. -/
theorem C1_witness :
    (Device.mk "u1" "Leitor" "AB-1" DStatus.emprestado (some "Maria") 0).status
        = DStatus.emprestado ↔
      (Device.mk "u1" "Leitor" "AB-1" DStatus.emprestado (some "Maria") 0).currentOwner
        ≠ none :=
  C1_status_lent_iff_holder _ _
    (Reachable.scan "ab-1" (some "Maria") "L1" 5
      (Reachable.add "Leitor" "ab-1" "u1" 0 Reachable.empty))
    (by decide)

/-- C2: For every state and every barcode whose normalized form matches a
device with status available, calling scan with a holder name that is
non-empty after trimming transitions exactly that device (the one matched by
id) to status lent, sets its `currentOwner` to the trimmed holder name,
appends exactly one checkout (`saida`) LogEntry — snapshotting the device
name and the holder — at the front of the logs (the tail being the previous
logs under the retention cap), and returns success with a message naming the
device and the holder; all other devices are unchanged (the update map is
the identity on them). -/
theorem C2_checkout_correct (s : Store) (b o fid : String) (t : Nat) (d : Device)
    (hfd : s.devices.find? (fun x => x.barcode == normalizeBarcode b) = some d)
    (hst : d.status = DStatus.disponivel) (how : jsTrim o ≠ "") :
    (scanDevice s b (some o) fid t).1.devices = s.devices.map (fun x =>
        if x.id = d.id then
          { x with status := DStatus.emprestado, currentOwner := some (jsTrim o) }
        else x)
    ∧ { d with status := DStatus.emprestado, currentOwner := some (jsTrim o) }
        ∈ (scanDevice s b (some o) fid t).1.devices
    ∧ (scanDevice s b (some o) fid t).1.logs =
        ⟨fid, d.name, LogAction.saida, jsTrim o, t⟩ :: s.logs.take 99
    ∧ (scanDevice s b (some o) fid t).2 =
        ⟨true, "SAÍDA: " ++ d.name ++ " → " ++ jsTrim o, false, none⟩ := by
  rw [scanDevice_checkout hfd hst how]
  refine ⟨rfl, ?_, rfl, rfl⟩
  have hmem : d ∈ s.devices := List.mem_of_find?_eq_some hfd
  exact List.mem_map.mpr ⟨d, hmem, by rw [if_pos rfl]⟩

/-- Witness for C2: checking out a registered available device with holder
name " Maria " produces the expected result descriptor. -/
theorem C2_witness :
    (scanDevice ⟨[⟨"u1", "Leitor", "AB-1", DStatus.disponivel, none, 0⟩], []⟩
        "ab-1" (some " Maria ") "L1" 5).2 =
      ⟨true, "SAÍDA: Leitor → Maria", false, none⟩ :=
  (C2_checkout_correct ⟨[⟨"u1", "Leitor", "AB-1", DStatus.disponivel, none, 0⟩], []⟩
    "ab-1" " Maria " "L1" 5 ⟨"u1", "Leitor", "AB-1", DStatus.disponivel, none, 0⟩
    (by decide) (by decide) (by decide)).2.2.2

/-- Counterexample to C3 as stated: scanning a lent device whose prior
`currentOwner` is the non-null empty string produces a checkin (`devolucao`)
LogEntry whose holder is the literal "Desconhecido" — not the prior
`currentOwner` (""), and not the literal "Unknown" either.  So the appended
holder neither equals the prior non-null holder nor uses the claimed
"Unknown" placeholder. -/
theorem C3_counterexample :
    ((scanDevice ⟨[⟨"u1", "Leitor", "AB-1", DStatus.emprestado, some "", 0⟩], []⟩
        "AB-1" none "L1" 3).1.logs.map (fun e => e.owner)) = ["Desconhecido"]
    ∧ ("Desconhecido" : String) ≠ ""
    ∧ ("Desconhecido" : String) ≠ "Unknown" := by
  decide

/-- C3 (amended): For every state and every barcode whose normalized form
matches a device with status lent, calling scan (with any or no holder name)
transitions exactly that device (the one matched by id) to status available,
clears its `currentOwner` to null, appends exactly one checkin (`devolucao`)
LogEntry at the front of the logs whose holder equals the device's prior
`currentOwner` when that is non-null and non-empty, and the literal
"Desconhecido" placeholder otherwise, and returns success; all other devices
are unchanged (the update map is the identity on them). -/
theorem C3_checkin_correct (s : Store) (b fid : String) (o : Option String)
    (t : Nat) (d : Device)
    (hfd : s.devices.find? (fun x => x.barcode == normalizeBarcode b) = some d)
    (hst : d.status = DStatus.emprestado) :
    (scanDevice s b o fid t).1.devices = s.devices.map (fun x =>
        if x.id = d.id then
          { x with status := DStatus.disponivel, currentOwner := none }
        else x)
    ∧ { d with status := DStatus.disponivel, currentOwner := (none : Option String) }
        ∈ (scanDevice s b o fid t).1.devices
    ∧ (scanDevice s b o fid t).1.logs =
        ⟨fid, d.name, LogAction.devolucao, previousOwnerOf d.currentOwner, t⟩
          :: s.logs.take 99
    ∧ (scanDevice s b o fid t).2 =
        ⟨true, "DEVOLVIDO: " ++ d.name ++ " ← " ++ previousOwnerOf d.currentOwner,
          false, none⟩ := by
  rw [scanDevice_checkin hfd hst]
  refine ⟨rfl, ?_, rfl, rfl⟩
  have hmem : d ∈ s.devices := List.mem_of_find?_eq_some hfd
  exact List.mem_map.mpr ⟨d, hmem, by rw [if_pos rfl]⟩

/-- Witness for C3 (amended): returning a lent device logs its prior holder
and clears it, for any value of the ignored holder argument. -/
theorem C3_witness :
    (scanDevice ⟨[⟨"u1", "Leitor", "AB-1", DStatus.emprestado, some "Maria", 0⟩], []⟩
        "ab-1" (some "Pedro") "L2" 9).2 =
      ⟨true, "DEVOLVIDO: Leitor ← Maria", false, none⟩ :=
  (C3_checkin_correct ⟨[⟨"u1", "Leitor", "AB-1", DStatus.emprestado, some "Maria", 0⟩], []⟩
    "ab-1" "L2" (some "Pedro") 9 ⟨"u1", "Leitor", "AB-1", DStatus.emprestado, some "Maria", 0⟩
    (by decide) (by decide)).2.2.2

/-- In a list of devices with pairwise-distinct ids, filtering away the id of
a member removes exactly one element. -/
theorem length_filter_ne_id {l : List Device} {i : String}
    (hids : (l.map (fun x => x.id)).Nodup) {d : Device} (hd : d ∈ l)
    (hdi : d.id = i) :
    (l.filter (fun x => !(x.id == i))).length + 1 = l.length := by
  induction l with
  | nil => cases hd
  | cons a tl ih =>
    rw [List.map_cons, List.nodup_cons] at hids
    obtain ⟨ha, htl⟩ := hids
    rcases List.mem_cons.mp hd with rfl | hdtl
    · rw [List.filter_cons_of_neg (by simp [hdi])]
      have hrest : tl.filter (fun x => !(x.id == i)) = tl := by
        apply List.filter_eq_self.mpr
        intro x hx
        simp only [Bool.not_eq_true', beq_eq_false_iff_ne]
        intro hxi
        exact ha (List.mem_map.mpr ⟨x, hx, by rw [hxi, hdi]⟩)
      rw [hrest]
      simp
    · have hane : a.id ≠ i := by
        intro hai
        exact ha (List.mem_map.mpr ⟨d, hdtl, by rw [hdi, ← hai]⟩)
      rw [List.filter_cons_of_pos (by simp [hane])]
      have := ih htl hdtl
      simp only [List.length_cons]
      omega

/-- Counterexample to C4 as stated: in a state holding a device with
normalized barcode "X", registering with an empty name and the barcode "x"
(whose normalized form also is "X") fails with the ValidationError message,
not with the DuplicateBarcodeError message interpolating the barcode — the
validation check runs before the duplicate check. -/
theorem C4_counterexample :
    ((Store.mk [⟨"u1", "Leitor", "X", DStatus.disponivel, none, 0⟩] []).devices.map
        (fun d => normalizeBarcode d.barcode)).contains (normalizeBarcode "x") = true
    ∧ (addDevice (Store.mk [⟨"u1", "Leitor", "X", DStatus.disponivel, none, 0⟩] [])
        "" "x" "u2" 1).2 = ⟨false, "Nome e código de barras são obrigatórios"⟩
    ∧ ("Nome e código de barras são obrigatórios" : String)
        ≠ "Código \"" ++ normalizeBarcode "x" ++ "\" já existe!" := by
  decide

/-- C4 (amended): For every reachable state in which some device's normalized
barcode equals the normalized form of the new barcode, register with a name
that is non-empty after trimming fails with a DuplicateBarcodeError result
(success = false, message interpolating the offending normalized barcode) and
adds no device; and in every reachable state no two devices share a
normalized barcode. -/
theorem C4_duplicate_barcode_rejected (s : Store) (n b fid : String) (t : Nat)
    (d : Device) (hreach : Reachable s) (hn : jsTrim n ≠ "") (hd : d ∈ s.devices)
    (hnb : normalizeBarcode d.barcode = normalizeBarcode b) :
    addDevice s n b fid t
        = (s, ⟨false, "Código \"" ++ normalizeBarcode b ++ "\" já existe!"⟩)
    ∧ (addDevice s n b fid t).1.devices = s.devices
    ∧ (s.devices.map (fun x => normalizeBarcode x.barcode)).Nodup := by
  obtain ⟨h1, h2, h3, h4⟩ := inv_of_reachable hreach
  have hdb : d.barcode = normalizeBarcode b := ((h2 d hd).1).trans hnb
  have hnbne : normalizeBarcode b ≠ "" := fun h => (h2 d hd).2 (hdb.trans h)
  have hmain : addDevice s n b fid t
      = (s, ⟨false, "Código \"" ++ normalizeBarcode b ++ "\" já existe!"⟩) := by
    simp only [addDevice]
    rw [if_neg (by push_neg; exact ⟨hn, hnbne⟩)]
    rw [if_pos (List.any_eq_true.mpr ⟨d, hd, by simp [hdb]⟩)]
  refine ⟨hmain, by rw [hmain], ?_⟩
  have hmapeq : s.devices.map (fun x => normalizeBarcode x.barcode)
      = s.devices.map (fun x => x.barcode) :=
    List.map_congr_left fun x hx => ((h2 x hx).1).symm
  rw [hmapeq]
  exact h3

/-- Witness for C4 (amended): re-registering barcode "x" over an existing
"X" (registered from "x") is rejected with the duplicate message. -/
theorem C4_witness :
    addDevice (addDevice ⟨[], []⟩ "Leitor" "x" "u1" 0).1 "Novo" "x" "u2" 1 =
      ((addDevice ⟨[], []⟩ "Leitor" "x" "u1" 0).1,
       ⟨false, "Código \"X\" já existe!"⟩) :=
  (C4_duplicate_barcode_rejected _ "Novo" "x" "u2" 1
    ⟨"u1", "Leitor", "X", DStatus.disponivel, none, 0⟩
    (Reachable.add "Leitor" "x" "u1" 0 Reachable.empty)
    (by decide) (by decide) (by decide)).1

/-- C5: For every state and every barcode whose normalized form matches a
device with status available, calling scan with a holder name that is absent
or empty after trimming returns a result flagged needsOwner = true carrying
the matched device, with no user-facing message (empty string), and leaves
both the devices collection and the logs collection entirely unchanged. -/
theorem C5_blank_holder_no_mutation (s : Store) (b fid : String)
    (o : Option String) (t : Nat) (d : Device)
    (hfd : s.devices.find? (fun x => x.barcode == normalizeBarcode b) = some d)
    (hst : d.status = DStatus.disponivel) (hblank : ownerBlank o = true) :
    (scanDevice s b o fid t).1.devices = s.devices
    ∧ (scanDevice s b o fid t).1.logs = s.logs
    ∧ (scanDevice s b o fid t).2 = ⟨false, "", true, some d⟩ := by
  rw [scanDevice_needsOwner hfd hst hblank]
  exact ⟨rfl, rfl, rfl⟩

/-- Witness for C5: scanning an available device without a holder name asks
for one, mutating nothing. -/
theorem C5_witness :
    (scanDevice ⟨[⟨"u1", "Leitor", "AB-1", DStatus.disponivel, none, 0⟩], []⟩
        "ab-1" (some "  ") "L1" 2).2 =
      ⟨false, "", true, some ⟨"u1", "Leitor", "AB-1", DStatus.disponivel, none, 0⟩⟩ :=
  (C5_blank_holder_no_mutation ⟨[⟨"u1", "Leitor", "AB-1", DStatus.disponivel, none, 0⟩], []⟩
    "ab-1" "L1" (some "  ") 2 ⟨"u1", "Leitor", "AB-1", DStatus.disponivel, none, 0⟩
    (by decide) (by decide) (by decide)).2.2

/-- C6: For every state whose device ids are pairwise distinct (ids are
opaque unique identifiers): unregister on the id of a lent device fails with
an InvalidStateError result and leaves the devices unchanged; unregister on
the id of an available device succeeds, removes exactly that device (the
filtered list is one element shorter) and leaves the logs entirely
unchanged; unregister on an id matching no device fails with a NotFoundError
result and changes nothing. -/
theorem C6_unregister_cases (s : Store) (i : String) (d : Device)
    (hids : (s.devices.map (fun x => x.id)).Nodup) :
    (s.devices.find? (fun x => x.id == i) = none →
      removeDevice s i = (s, ⟨false, "Dispositivo não encontrado"⟩))
    ∧ (s.devices.find? (fun x => x.id == i) = some d →
        d.status = DStatus.emprestado →
      removeDevice s i = (s, ⟨false, "Não é possível remover um dispositivo emprestado"⟩))
    ∧ (s.devices.find? (fun x => x.id == i) = some d →
        d.status = DStatus.disponivel →
      (removeDevice s i).1.devices = s.devices.filter (fun x => !(x.id == i))
      ∧ (removeDevice s i).1.devices.length + 1 = s.devices.length
      ∧ (removeDevice s i).1.logs = s.logs
      ∧ (removeDevice s i).2 = ⟨true, "Coletor \"" ++ d.name ++ "\" removido!"⟩) := by
  refine ⟨?_, ?_, ?_⟩
  · intro hfd
    simp only [removeDevice]
    rw [hfd]
  · intro hfd hst
    simp only [removeDevice]
    rw [hfd]
    dsimp only
    rw [if_pos hst]
  · intro hfd hst
    have hred : removeDevice s i =
        (⟨s.devices.filter (fun x => !(x.id == i)), s.logs⟩,
         ⟨true, "Coletor \"" ++ d.name ++ "\" removido!"⟩) := by
      simp only [removeDevice]
      rw [hfd]
      dsimp only
      rw [if_neg (by rw [hst]; intro hcontra; cases hcontra)]
    have hdi : d.id = i := by
      have := List.find?_some hfd
      simpa using this
    refine ⟨by rw [hred], ?_, by rw [hred], by rw [hred]⟩
    rw [hred]
    exact length_filter_ne_id hids (List.mem_of_find?_eq_some hfd) hdi

/-- Witness for C6: removing an available device from a two-device store
removes exactly it and reports success. -/
theorem C6_witness :
    (removeDevice ⟨[⟨"u1", "Leitor", "AB-1", DStatus.disponivel, none, 0⟩,
                    ⟨"u2", "Coletor 2", "CD-2", DStatus.emprestado, some "Ana", 1⟩], []⟩
        "u1").1.devices.length + 1 =
      (Store.mk [⟨"u1", "Leitor", "AB-1", DStatus.disponivel, none, 0⟩,
                 ⟨"u2", "Coletor 2", "CD-2", DStatus.emprestado, some "Ana", 1⟩] []).devices.length :=
  ((C6_unregister_cases ⟨[⟨"u1", "Leitor", "AB-1", DStatus.disponivel, none, 0⟩,
      ⟨"u2", "Coletor 2", "CD-2", DStatus.emprestado, some "Ana", 1⟩], []⟩ "u1"
      ⟨"u1", "Leitor", "AB-1", DStatus.disponivel, none, 0⟩
      (by decide)).2.2 (by decide) (by decide)).2.1

/-- Counterexample to C7 as stated: registering with an empty name fails, but
the fixed user-facing message is the Portuguese source literal, not the
English sentence "Name and barcode are required" quoted by the claim. -/
theorem C7_counterexample :
    (addDevice ⟨[], []⟩ "" "B1" "u1" 0).2
        = ⟨false, "Nome e código de barras são obrigatórios"⟩
    ∧ ("Nome e código de barras são obrigatórios" : String)
        ≠ "Name and barcode are required" := by
  decide

/-- C7 (amended): For every state and all inputs, register with a name that
is empty after trimming, or a barcode that is empty after uppercasing and
trimming, fails with a ValidationError result carrying the fixed user-facing
message "Nome e código de barras são obrigatórios", and no device is added
(the state is returned unchanged). -/
theorem C7_validation_error (s : Store) (n b fid : String) (t : Nat)
    (h : jsTrim n = "" ∨ normalizeBarcode b = "") :
    addDevice s n b fid t = (s, ⟨false, "Nome e código de barras são obrigatórios"⟩) := by
  simp only [addDevice]
  rw [if_pos h]

/-- Witness for C7 (amended): a whitespace-only name is rejected. -/
theorem C7_witness :
    addDevice ⟨[], []⟩ "   " "B1" "u1" 0 =
      (⟨[], []⟩, ⟨false, "Nome e código de barras são obrigatórios"⟩) :=
  C7_validation_error ⟨[], []⟩ "   " "B1" "u1" 0 (Or.inl (by decide))

/-- C10: For every state and every barcode whose normalized form matches a
device with status lent, the full result of scan — the returned store
(devices and logs) and the result descriptor — is identical for every value
of the optional holder-name argument, including absent (given the same fresh
log id and timestamp): a provided holder name has no influence on a
check-in. -/
theorem C10_checkin_ignores_holder (s : Store) (b fid : String) (t : Nat)
    (d : Device) (o1 o2 : Option String)
    (hfd : s.devices.find? (fun x => x.barcode == normalizeBarcode b) = some d)
    (hst : d.status = DStatus.emprestado) :
    scanDevice s b o1 fid t = scanDevice s b o2 fid t := by
  rw [scanDevice_checkin hfd hst, scanDevice_checkin hfd hst]

/-- Witness for C10: returning a lent device with holder "Pedro" supplied
equals returning it with no holder supplied. -/
theorem C10_witness :
    scanDevice ⟨[⟨"u1", "Leitor", "AB-1", DStatus.emprestado, some "Maria", 0⟩], []⟩
        "AB-1" (some "Pedro") "L1" 4 =
      scanDevice ⟨[⟨"u1", "Leitor", "AB-1", DStatus.emprestado, some "Maria", 0⟩], []⟩
        "AB-1" none "L1" 4 :=
  C10_checkin_ignores_holder ⟨[⟨"u1", "Leitor", "AB-1", DStatus.emprestado, some "Maria", 0⟩], []⟩
    "AB-1" "L1" 4 ⟨"u1", "Leitor", "AB-1", DStatus.emprestado, some "Maria", 0⟩
    (some "Pedro") none (by decide) (by decide)

/-- Iterated log insertion: apply a chronological sequence of new entries
to a log list, each by `pushLog` (front insertion under the cap). -/
def applyScans (es : List LogEntry) (L : List LogEntry) : List LogEntry :=
  es.foldl (fun acc e => pushLog e acc) L

theorem take_append_take {α : Type} (xs ys : List α) (n : Nat) :
    (xs ++ ys.take n).take n = (xs ++ ys).take n := by
  rw [List.take_append_eq_append_take, List.take_append_eq_append_take, List.take_take]
  congr 1
  rw [Nat.min_eq_left (Nat.sub_le n xs.length)]

theorem applyScans_eq (es L : List LogEntry) (hL : L.length ≤ 100) :
    applyScans es L = (es.reverse ++ L).take 100 := by
  induction es generalizing L with
  | nil =>
    simp only [applyScans, List.foldl_nil, List.reverse_nil, List.nil_append]
    rw [List.take_of_length_le hL]
  | cons e es ih =>
    have hstep : applyScans (e :: es) L = applyScans es (pushLog e L) := rfl
    rw [hstep, ih (pushLog e L) (by simp only [pushLog, List.length_take]; omega)]
    simp only [pushLog, List.reverse_cons, List.append_assoc, List.singleton_append]
    rw [take_append_take]

/-- C8: The fixed retention constant is C = 100: every reachable state's
logs hold at most 100 entries; every scan either leaves the logs unchanged
or inserts exactly one entry at the front capped at 100 (`pushLog`); and
after applying any chronological sequence of at least 100 pushed entries to
any in-cap log, the log holds exactly the 100 most recent entries, newest
first (the reversed sequence, truncated to 100). -/
theorem C8_log_retention :
    (∀ s : Store, Reachable s → s.logs.length ≤ 100)
    ∧ (∀ (s : Store) (b : String) (o : Option String) (fid : String) (t : Nat),
        (scanDevice s b o fid t).1.logs = s.logs
        ∨ ∃ e, (scanDevice s b o fid t).1.logs = pushLog e s.logs)
    ∧ (∀ (es L : List LogEntry), L.length ≤ 100 →
        applyScans es L = (es.reverse ++ L).take 100)
    ∧ (∀ (es L : List LogEntry), L.length ≤ 100 → 100 ≤ es.length →
        applyScans es L = es.reverse.take 100 ∧ (applyScans es L).length = 100) := by
  refine ⟨?_, ?_, ?_, ?_⟩
  · intro s h
    exact (inv_of_reachable h).2.2.2
  · intro s b o fid t
    cases hfd : s.devices.find? (fun x => x.barcode == normalizeBarcode b) with
    | none =>
      left
      simp only [scanDevice]
      rw [hfd]
    | some d =>
      by_cases hst : d.status = DStatus.disponivel
      · cases o with
        | none =>
          left
          rw [scanDevice_needsOwner hfd hst (by decide)]
        | some ow =>
          by_cases how : jsTrim ow = ""
          · left
            rw [scanDevice_needsOwner hfd hst (by simp [ownerBlank, how])]
          · right
            exact ⟨⟨fid, d.name, LogAction.saida, jsTrim ow, t⟩,
              by rw [scanDevice_checkout hfd hst how]⟩
      · have hst' : d.status = DStatus.emprestado := by
          cases hd : d.status
          · exact absurd hd hst
          · rfl
        right
        exact ⟨⟨fid, d.name, LogAction.devolucao, previousOwnerOf d.currentOwner, t⟩,
          by rw [scanDevice_checkin hfd hst']⟩
  · intro es L hL
    exact applyScans_eq es L hL
  · intro es L hL hes
    have h1 := applyScans_eq es L hL
    have h2 : (es.reverse ++ L).take 100 = es.reverse.take 100 := by
      apply List.take_append_of_le_length
      rw [List.length_reverse]
      omega
    refine ⟨h1.trans h2, ?_⟩
    rw [h1.trans h2, List.length_take, List.length_reverse]
    omega

/-- Witness for C8: from the empty (reachable) store the cap holds, and
pushing 150 identical entries onto an empty log retains exactly 100. -/
theorem C8_witness :
    (Store.mk [] []).logs.length ≤ 100
    ∧ applyScans (List.replicate 150 ⟨"L", "Leitor", LogAction.saida, "Maria", 1⟩) []
        = (List.replicate 150
            (LogEntry.mk "L" "Leitor" LogAction.saida "Maria" 1)).reverse.take 100
    ∧ (applyScans (List.replicate 150 ⟨"L", "Leitor", LogAction.saida, "Maria", 1⟩) []).length
        = 100 :=
  ⟨C8_log_retention.1 ⟨[], []⟩ Reachable.empty,
   (C8_log_retention.2.2.2 (List.replicate 150 ⟨"L", "Leitor", LogAction.saida, "Maria", 1⟩)
     [] (by decide) (by simp)).1,
   (C8_log_retention.2.2.2 (List.replicate 150 ⟨"L", "Leitor", LogAction.saida, "Maria", 1⟩)
     [] (by decide) (by simp)).2⟩

/-- Counterexample to C9 as stated: two lent devices that differ in id and
barcode but share name and holder produce byte-for-byte identical log
entries when scanned (with the same fresh id and time).  A LogEntry
therefore carries no `deviceId` or `deviceBarcode` snapshot — the LogEntry
record has only `id`, `deviceName`, `action`, `owner`, `timestamp`. -/
theorem C9_counterexample :
    ((Store.mk [⟨"id1", "Leitor", "B1", DStatus.emprestado, some "Maria", 0⟩,
                ⟨"id2", "Leitor", "B2", DStatus.emprestado, some "Maria", 0⟩] []).devices.map
        (fun d => (d.id, d.barcode))) = [("id1", "B1"), ("id2", "B2")]
    ∧ (scanDevice ⟨[⟨"id1", "Leitor", "B1", DStatus.emprestado, some "Maria", 0⟩,
                    ⟨"id2", "Leitor", "B2", DStatus.emprestado, some "Maria", 0⟩], []⟩
        "B1" none "L" 7).1.logs.length = 1
    ∧ (scanDevice ⟨[⟨"id1", "Leitor", "B1", DStatus.emprestado, some "Maria", 0⟩,
                    ⟨"id2", "Leitor", "B2", DStatus.emprestado, some "Maria", 0⟩], []⟩
        "B1" none "L" 7).1.logs
      = (scanDevice ⟨[⟨"id1", "Leitor", "B1", DStatus.emprestado, some "Maria", 0⟩,
                      ⟨"id2", "Leitor", "B2", DStatus.emprestado, some "Maria", 0⟩], []⟩
        "B2" none "L" 7).1.logs := by
  decide

/-- C9 (amended): Every LogEntry created by a scan state transition (a scan
whose result reports success) snapshots the matched device's name at the
time of the event in its `deviceName` field, and carries the fresh event id
and timestamp; the LogEntry type has no deviceId or deviceBarcode fields to
snapshot. -/
theorem C9_log_snapshots_name (s : Store) (b fid : String) (o : Option String)
    (t : Nat) (d : Device)
    (hfd : s.devices.find? (fun x => x.barcode == normalizeBarcode b) = some d)
    (hsucc : (scanDevice s b o fid t).2.success = true) :
    (scanDevice s b o fid t).1.logs.head?.map (fun e => (e.id, e.deviceName, e.timestamp))
      = some (fid, d.name, t) := by
  by_cases hst : d.status = DStatus.disponivel
  · cases o with
    | none =>
      rw [scanDevice_needsOwner hfd hst (by decide)] at hsucc
      cases hsucc
    | some ow =>
      by_cases how : jsTrim ow = ""
      · rw [scanDevice_needsOwner hfd hst (by simp [ownerBlank, how])] at hsucc
        cases hsucc
      · rw [scanDevice_checkout hfd hst how]
        simp [pushLog]
  · have hst' : d.status = DStatus.emprestado := by
      cases hd : d.status
      · exact absurd hd hst
      · rfl
    rw [scanDevice_checkin hfd hst']
    simp [pushLog]

/-- Witness for C9 (amended): the checkin entry for a concrete scan
snapshots the device name "Leitor" with the fresh id and time. -/
theorem C9_witness :
    (scanDevice ⟨[⟨"u1", "Leitor", "AB-1", DStatus.emprestado, some "Maria", 0⟩], []⟩
        "AB-1" none "L9" 11).1.logs.head?.map (fun e => (e.id, e.deviceName, e.timestamp))
      = some ("L9", "Leitor", 11) :=
  C9_log_snapshots_name ⟨[⟨"u1", "Leitor", "AB-1", DStatus.emprestado, some "Maria", 0⟩], []⟩
    "AB-1" "L9" none 11 ⟨"u1", "Leitor", "AB-1", DStatus.emprestado, some "Maria", 0⟩
    (by decide) (by decide)

end Coletores
